import Mathlib

/-!
Bookmark-pro: the form controller and the list presentation helpers.

A shallow embedding of `src/components/BookmarkForm.jsx` and
`src/components/BookmarkList.jsx`.

Conventions of the embedding.

* JavaScript strings are Lean `String`s (well-formed text); where the source
  reads UTF-16 code units (`charCodeAt`) the code units are computed by
  `utf16Units`.
* JavaScript numbers that hold integers are `Int`s; the 32-bit conversion
  applied by `<<` is written out with `% 2^32`.
* The platform constructor `new URL(s)` is not code of this repository: it is
  a parameter `parseUrl : String → Option Url`, where `none` stands for the
  thrown `TypeError`.
-/

namespace BookmarkPro

/-! ## JavaScript string primitives used by the source -/

/-- The code points removed by `String.prototype.trim`: ECMAScript WhiteSpace
(TAB, VT, FF, SP, NBSP, ZWNBSP, category Zs) and LineTerminator
(LF, CR, LS, PS). -/
def isJsWhiteSpace (c : Char) : Bool :=
  let n := c.toNat
  n == 0x09 || n == 0x0A || n == 0x0B || n == 0x0C || n == 0x0D || n == 0x20 ||
  n == 0xA0 || n == 0x1680 || (0x2000 ≤ n && n ≤ 0x200A) || n == 0x2028 ||
  n == 0x2029 || n == 0x202F || n == 0x205F || n == 0x3000 || n == 0xFEFF

/-- The characters of `s.trim()`: white space dropped at both ends. -/
def trimChars (l : List Char) : List Char :=
  (l.dropWhile isJsWhiteSpace).rdropWhile isJsWhiteSpace

/-- The method `String.prototype.trim`. -/
def jsTrim (s : String) : String := ⟨trimChars s.data⟩

/-- Truthiness of a string value: only the empty string is falsy. -/
def truthy (s : String) : Bool := !s.data.isEmpty

/-- The remainder of `/^https?:\/\//i` after `http`: an optional `s` (tried
first with, then without) followed by `://`. -/
def schemeTail (rest : List Char) : Bool :=
  match rest with
  | ':' :: '/' :: '/' :: _ => true
  | s :: ':' :: '/' :: '/' :: _ => s == 's' || s == 'S'
  | _ => false

/-- The test `/^https?:\/\//i.test(u)` on the characters of `u`.  Without the
`u` flag, case-insensitive matching relates an ASCII letter only to its other
ASCII case. -/
def hasHttpScheme (u : List Char) : Bool :=
  match u with
  | a :: b :: c :: d :: rest =>
    (a == 'h' || a == 'H') && (b == 't' || b == 'T') && (c == 't' || c == 'T') &&
    (d == 'p' || d == 'P') && schemeTail rest
  | _ => false

/-! ## BookmarkForm.jsx -/

/-- The literal part of the template string in `normalizeUrl`. -/
def httpsPrefix : List Char := "https://".data

/-- The function `normalizeUrl` of `BookmarkForm.jsx`, on characters. -/
def normalizeChars (raw : List Char) : List Char :=
  let u := trimChars raw
  if u.isEmpty then u
  else if !hasHttpScheme u then httpsPrefix ++ u
  else u

/-- The function `normalizeUrl` of `BookmarkForm.jsx`. -/
def normalizeUrl (raw : String) : String := ⟨normalizeChars raw.data⟩

/-- What the source reads of a successfully constructed `URL` object. -/
structure Url where
  hostname : String
  deriving DecidableEq, Repr

/-- The local state of the form component (the four `useState` cells). -/
structure FormDraft where
  title : String
  url : String
  loading : Bool
  error : Option String
  deriving DecidableEq, Repr

/-- The initial render: `useState("")`, `useState("")`, `useState(false)`,
`useState(null)`. -/
def FormDraft.initial : FormDraft :=
  { title := "", url := "", loading := false, error := none }

/-- The part of `handleSubmit` that runs before `await`: the state it leaves
and, when it got that far, the arguments of the `onAdd` call it made. -/
def submitStart (parseUrl : String → Option Url) (s : FormDraft) :
    FormDraft × Option (String × String) :=
  let s1 := { s with error := none }
  if !truthy (jsTrim s.title) || !truthy (jsTrim s.url) then
    ({ s1 with error := some "Both fields are required" }, none)
  else
    let finalUrl := normalizeUrl s.url
    match parseUrl finalUrl with
    | none => ({ s1 with error := some "That doesn't look like a valid URL" }, none)
    | some _ => ({ s1 with loading := true }, some (jsTrim s.title, finalUrl))

/-- The part of `handleSubmit` that runs after `await onAdd(...)` has produced
`ok`, applied to the state current at that moment. -/
def submitResume (s : FormDraft) (ok : Bool) : FormDraft :=
  let s1 := if ok then { s with title := "", url := "" }
            else { s with error := some "Something went wrong, try again" }
  { s1 with loading := false }

/-- One whole run of `handleSubmit` against a collaborator that answers at once:
the final state and the list of `onAdd` calls made. -/
def handleSubmit (parseUrl : String → Option Url) (onAdd : String → String → Bool)
    (s : FormDraft) : FormDraft × List (String × String) :=
  match submitStart parseUrl s with
  | (s1, none) => (s1, [])
  | (s1, some (t, u)) => (submitResume s1 (onAdd t u), [(t, u)])

/-- The attribute `disabled={loading}` of the title input. -/
def titleDisabled (s : FormDraft) : Bool := s.loading

/-- The attribute `disabled={loading}` of the URL input. -/
def urlDisabled (s : FormDraft) : Bool := s.loading

/-- The attribute `disabled={loading}` of the submit button. -/
def submitDisabled (s : FormDraft) : Bool := s.loading

/-- The form together with the `onAdd` calls whose promise has not settled yet,
each one a suspended `handleSubmit`. -/
structure FormSys where
  draft : FormDraft
  inFlight : List (String × String)
  deriving DecidableEq, Repr

/-- The mounted form: initial state, nothing in flight. -/
def FormSys.initial : FormSys := { draft := FormDraft.initial, inFlight := [] }

/-- The things that can happen to the form: the two `onChange` handlers, the
`onSubmit` handler, the `i`-th pending `onAdd` call resolving with `ok`, and the
`i`-th pending `onAdd` call rejecting (or having thrown). -/
inductive FormEvent where
  | changeTitle (value : String)
  | changeUrl (value : String)
  | submit
  | settle (i : Nat) (ok : Bool)
  | fail (i : Nat)
  deriving DecidableEq, Repr

/-- What the component's handlers do with an event, whatever produced it.
There is no `try`/`finally` around `await onAdd(...)`: when the call rejects,
the rest of `handleSubmit` never runs, so the call is no longer pending and the
state stays as it was, `loading` included. -/
def dispatch (parseUrl : String → Option Url) (s : FormSys) : FormEvent → FormSys
  | .changeTitle v => { s with draft := { s.draft with title := v } }
  | .changeUrl v => { s with draft := { s.draft with url := v } }
  | .submit =>
    match submitStart parseUrl s.draft with
    | (d, none) => { s with draft := d }
    | (d, some call) => { draft := d, inFlight := s.inFlight ++ [call] }
  | .settle i ok =>
    if i < s.inFlight.length then
      { draft := submitResume s.draft ok, inFlight := s.inFlight.eraseIdx i }
    else s
  | .fail i =>
    if i < s.inFlight.length then
      { draft := s.draft, inFlight := s.inFlight.eraseIdx i }
    else s

/-- Handler-level execution: every event of the list reaches its handler. -/
def dispatchAll (parseUrl : String → Option Url) (s : FormSys) (es : List FormEvent) :
    FormSys :=
  es.foldl (dispatch parseUrl) s

/-- Whether the rendered page can produce the event: a disabled input takes no
edits, a disabled submit button submits nothing, and only a pending call can
resolve or reject. -/
def uiEnabled (s : FormSys) : FormEvent → Bool
  | .changeTitle _ => !titleDisabled s.draft
  | .changeUrl _ => !urlDisabled s.draft
  | .submit => !submitDisabled s.draft
  | .settle i _ => decide (i < s.inFlight.length)
  | .fail i => decide (i < s.inFlight.length)

/-- The states the rendered form can reach: from the mounted form, by events the
page can produce. -/
inductive UiReachable (parseUrl : String → Option Url) : FormSys → Prop where
  | init : UiReachable parseUrl FormSys.initial
  | step {s : FormSys} (e : FormEvent) (before : UiReachable parseUrl s)
      (enabled : uiEnabled s e = true) : UiReachable parseUrl (dispatch parseUrl s e)

/-- The invariant of the rendered form: either nothing is in flight, or
exactly one call is and loading is on. -/
def FormSys.Balanced (s : FormSys) : Prop :=
  s.inFlight = [] ∨ (s.draft.loading = true ∧ s.inFlight.length = 1)

/-- A stand-in for `new URL` on a small fragment of the URL syntax, used to
instantiate the parser parameter at concrete inputs: it accepts
`http://` or `https://`, then a host of lower-case letters and dots that starts
with a letter, then nothing or a `/` followed by lower-case letters, digits and
slashes; the hostname is the host as written.  Everything else is rejected.
On the inputs it is applied to here it answers as `new URL` does:
`https://example.com` and `https://www.example.com/x` parse with the host as
written, while `not a url` (no scheme) and `https://my site` (a blank in the
host) throw. -/
def simpleParseUrl (s : String) : Option Url :=
  let cs := s.data
  let body : Option (List Char) :=
    match cs with
    | 'h' :: 't' :: 't' :: 'p' :: 's' :: ':' :: '/' :: '/' :: r => some r
    | 'h' :: 't' :: 't' :: 'p' :: ':' :: '/' :: '/' :: r => some r
    | _ => none
  match body with
  | none => none
  | some r =>
    let host := r.takeWhile (fun c => c.isLower || c == '.')
    let path := r.dropWhile (fun c => c.isLower || c == '.')
    let hostOk := match host with
      | c :: _ => c.isLower
      | [] => false
    let pathOk := match path with
      | [] => true
      | '/' :: p => p.all (fun c => c.isLower || c.isDigit || c == '/')
      | _ => false
    if hostOk && pathOk then some { hostname := ⟨host⟩ } else none

/-! ## BookmarkList.jsx -/

/-- The time value of `new Date(dateStr)`: milliseconds since the epoch, or
`none` for an invalid date (`NaN`). -/
abbrev TimeValue := Option Int

/-- The function `timeAgo`.  `now` is `Date.now()`, `time` is
`new Date(dateStr).getTime()` and `formatMonthDay` is the platform call
`toLocaleDateString("en-US", { month: "short", day: "numeric" })` on that date.
Every comparison with `NaN` is false, so an invalid date falls through to the
last line.  `Math.floor` of a quotient by a positive constant is `Int` division,
which rounds down. -/
def timeAgo (formatMonthDay : TimeValue → String) (now : Int) (time : TimeValue) :
    String :=
  match time with
  | none => formatMonthDay none
  | some t =>
    let diff := now - t
    let mins := diff / 60000
    if mins < 1 then "just now"
    else if mins < 60 then toString mins ++ "m ago"
    else
      let hrs := mins / 60
      if hrs < 24 then toString hrs ++ "h ago"
      else
        let days := hrs / 24
        if days < 7 then toString days ++ "d ago"
        else if days < 30 then toString (days / 7) ++ "w ago"
        else formatMonthDay (some t)

/-- The call `hostname.replace(/^www\./, "")`: one leading `www.` removed. -/
def stripWww (host : String) : String :=
  match host.data with
  | 'w' :: 'w' :: 'w' :: '.' :: rest => ⟨rest⟩
  | _ => host

/-- The function `getDomain`: the `catch` branch returns the argument. -/
def getDomain (parseUrl : String → Option Url) (url : String) : String :=
  match parseUrl url with
  | some u => stripWww u.hostname
  | none => url

/-- The function `getFavicon`: the `catch` branch returns `null`. -/
def getFavicon (parseUrl : String → Option Url) (url : String) : Option String :=
  match parseUrl url with
  | some u => some ("https://www.google.com/s2/favicons?domain=" ++ u.hostname ++ "&sz=32")
  | none => none

/-- The UTF-16 code units of a string, which is what `charCodeAt` reads and
`length` counts: a code point above `0xFFFF` is a surrogate pair. -/
def utf16Units (s : String) : List Nat :=
  s.data.flatMap fun c =>
    let n := c.toNat
    if n < 0x10000 then [n]
    else [0xD800 + (n - 0x10000) / 0x400, 0xDC00 + (n - 0x10000) % 0x400]

/-- The conversion `ToInt32`: reduce modulo `2^32` into `[-2^31, 2^31)`. -/
def toInt32 (x : Int) : Int :=
  let m := x % 2 ^ 32
  if m ≥ 2 ^ 31 then m - 2 ^ 32 else m

/-- The expression `hash << 5`: the left operand is converted with `ToInt32`,
and the shifted value is again a 32-bit integer. -/
def shl5 (hash : Int) : Int := toInt32 (toInt32 hash * 32)

/-- The loop body `hash = domain.charCodeAt(i) + ((hash << 5) - hash)`.  Only the
shift is 32-bit; the subtraction and the addition are ordinary number
arithmetic on the unconverted `hash`. -/
def hashStep (hash : Int) (code : Nat) : Int := (code : Int) + (shl5 hash - hash)

/-- The value of `hash` after the loop of `getDomainColor`. -/
def domainHash (units : List Nat) : Int := units.foldl hashStep 0

/-- The array `colors` of `getDomainColor`, in source order. -/
def colors : List String :=
  [ "from-violet-500/20 to-violet-600/10 text-violet-400",
    "from-blue-500/20 to-blue-600/10 text-blue-400",
    "from-cyan-500/20 to-cyan-600/10 text-cyan-400",
    "from-emerald-500/20 to-emerald-600/10 text-emerald-400",
    "from-amber-500/20 to-amber-600/10 text-amber-400",
    "from-rose-500/20 to-rose-600/10 text-rose-400",
    "from-pink-500/20 to-pink-600/10 text-pink-400",
    "from-indigo-500/20 to-indigo-600/10 text-indigo-400" ]

/-- The index expression `Math.abs(hash) % colors.length`. -/
def colorIndex (hash : Int) : Nat := hash.natAbs % colors.length

/-- The function `getDomainColor`; array indexing yields `none` (`undefined`)
outside the array. -/
def getDomainColor (domain : String) : Option String :=
  colors[colorIndex (domainHash (utf16Units domain))]?

/-- One step of the multiply-by-31 hash in 32-bit signed arithmetic, as the
specification words it: the running value is wrapped after every step. -/
def classicStep (h : Int) (code : Nat) : Int := toInt32 (31 * h + code)

/-- The multiply-by-31 rolling hash of the specification, wrapped to 32 bits
after every step. -/
def classicHash (units : List Nat) : Int := units.foldl classicStep 0

/-- The palette entry the specification's 32-bit hash selects. -/
def classicColor (domain : String) : Option String :=
  colors[colorIndex (classicHash (utf16Units domain))]?

/-- A bookmark record as the list reads it. -/
structure Bookmark where
  id : String
  title : String
  url : String
  is_favorite : Bool
  created_at : Option String
  deriving DecidableEq, Repr

/-- What the list obtains from the platform: the URL constructor, the time
value of `new Date(dateStr)`, the month-day formatting, and `Date.now()`. -/
structure Platform where
  parseUrl : String → Option Url
  dateTime : String → TimeValue
  formatMonthDay : TimeValue → String
  now : Int

/-- One rendered row of the populated list. -/
structure Row where
  key : String
  starred : Bool
  faviconUrl : String
  title : String
  favBadge : Bool
  href : String
  domain : String
  age : Option String
  deriving DecidableEq, Repr

/-- What `BookmarkList` returns, one constructor per `return`. -/
inductive ListView where
  | skeleton (placeholders : List Nat)
  | emptySearch (message hint : String)
  | emptyAll (message hint : String)
  | populated (heading : String) (count : Nat) (noun : String) (rows : List Row)
  deriving DecidableEq, Repr

/-- Truthiness of the `searchQuery` prop: `null`, `undefined` and `""` are
falsy. -/
def queryActive (searchQuery : Option String) : Bool :=
  match searchQuery with
  | some q => truthy q
  | none => false

/-- The body of `bookmarks.map((bm) => ...)`. -/
def renderRow (pf : Platform) (bm : Bookmark) : Row :=
  { key := bm.id
    starred := bm.is_favorite
    faviconUrl := bm.url
    title := bm.title
    favBadge := bm.is_favorite
    href := bm.url
    domain := getDomain pf.parseUrl bm.url
    age := match bm.created_at with
      | some d => if truthy d then some (timeAgo pf.formatMonthDay pf.now (pf.dateTime d)) else none
      | none => none }

/-- The component `BookmarkList`. -/
def BookmarkList (pf : Platform) (bookmarks : List Bookmark) (loading : Bool)
    (searchQuery : Option String) : ListView :=
  if loading then .skeleton [1, 2, 3]
  else if bookmarks.length == 0 then
    match searchQuery with
    | some q =>
      if truthy q then
        .emptySearch ("No matches for \u201c" ++ q ++ "\u201d") "Try a different search term"
      else .emptyAll "No bookmarks yet" "Save your first link above to get started"
    | none => .emptyAll "No bookmarks yet" "Save your first link above to get started"
  else
    .populated (if queryActive searchQuery then "Search results" else "Your links")
      bookmarks.length (if bookmarks.length == 1 then "link" else "links")
      (bookmarks.map (renderRow pf))

/-! ## Trimming -/

theorem rdropWhile_keeps_head (p : Char → Bool) (m : List Char)
    (hm : m.dropWhile p = m) : (m.rdropWhile p).dropWhile p = m.rdropWhile p := by
  cases m with
  | nil => simp
  | cons a t =>
    have ha : ¬ p a = true := by
      have h := (List.dropWhile_eq_self_iff).1 hm (by simp)
      simpa using h
    obtain ⟨r, hr⟩ := List.rdropWhile_prefix p (a :: t)
    cases hq : List.rdropWhile p (a :: t) with
    | nil => simp
    | cons b q =>
      rw [hq] at hr
      have hb : b = a := by
        have := congrArg List.head? hr
        simpa using this
      subst hb
      exact List.dropWhile_cons_of_neg ha

theorem trimChars_dropWhile (l : List Char) :
    (trimChars l).dropWhile isJsWhiteSpace = trimChars l :=
  rdropWhile_keeps_head _ _ (List.dropWhile_idempotent _ _)

theorem trimChars_rdropWhile (l : List Char) :
    (trimChars l).rdropWhile isJsWhiteSpace = trimChars l :=
  List.rdropWhile_idempotent _ _

theorem trimChars_of_fixed (l : List Char) (h1 : l.dropWhile isJsWhiteSpace = l)
    (h2 : l.rdropWhile isJsWhiteSpace = l) : trimChars l = l := by
  unfold trimChars
  rw [h1, h2]

theorem trimChars_idem (l : List Char) : trimChars (trimChars l) = trimChars l :=
  trimChars_of_fixed _ (trimChars_dropWhile l) (trimChars_rdropWhile l)

theorem rdropWhile_append_fixed (p : Char → Bool) (a t : List Char) (ht : t ≠ [])
    (h : t.rdropWhile p = t) : (a ++ t).rdropWhile p = a ++ t := by
  rw [List.rdropWhile_eq_self_iff] at h ⊢
  intro hl
  have hlast : (a ++ t).getLast hl = t.getLast ht := by
    simp [List.getLast_append, ht]
  rw [hlast]
  exact h ht

theorem trimChars_https_append (t : List Char) (ht : t ≠ [])
    (h2 : t.rdropWhile isJsWhiteSpace = t) :
    trimChars (httpsPrefix ++ t) = httpsPrefix ++ t := by
  apply trimChars_of_fixed
  · rfl
  · exact rdropWhile_append_fixed _ _ _ ht h2

theorem hasHttpScheme_https_append (t : List Char) :
    hasHttpScheme (httpsPrefix ++ t) = true := by
  rfl

theorem normalizeChars_eq (raw : List Char) :
    normalizeChars raw =
      if trimChars raw = [] then []
      else if hasHttpScheme (trimChars raw) = true then trimChars raw
      else httpsPrefix ++ trimChars raw := by
  unfold normalizeChars
  by_cases he : trimChars raw = []
  · simp [he]
  · by_cases hs : hasHttpScheme (trimChars raw) = true
    · simp [he, hs]
    · simp [he, hs]

theorem https_append_ne_nil (t : List Char) : httpsPrefix ++ t ≠ [] := by
  intro h
  have := congrArg List.length h
  simp [httpsPrefix] at this

theorem normalizeChars_idem (raw : List Char) :
    normalizeChars (normalizeChars raw) = normalizeChars raw := by
  rw [normalizeChars_eq raw]
  by_cases he : trimChars raw = []
  · rw [if_pos he]
    rfl
  · rw [if_neg he]
    by_cases hs : hasHttpScheme (trimChars raw) = true
    · rw [if_pos hs, normalizeChars_eq, trimChars_idem, if_neg he, if_pos hs]
    · rw [if_neg hs, normalizeChars_eq,
        trimChars_https_append _ he (trimChars_rdropWhile raw),
        if_neg (https_append_ne_nil _), if_pos (hasHttpScheme_https_append _)]

/-! ## Claims about `normalizeUrl` -/

/-- C10: `normalizeUrl` is idempotent, so a URL that is already normalized
comes back unchanged and never gains a second `https://`. -/
theorem normalizeUrl_idempotent (raw : String) :
    normalizeUrl (normalizeUrl raw) = normalizeUrl raw := by
  unfold normalizeUrl
  simp only [normalizeChars_idem]

theorem normalizeUrl_eq_prefixed (raw : String) (hne : truthy (jsTrim raw) = true)
    (hs : hasHttpScheme (jsTrim raw).data = false) :
    normalizeUrl raw = "https://" ++ jsTrim raw := by
  have he : trimChars raw.data ≠ [] := by
    intro h
    simp [truthy, jsTrim, h] at hne
  have hs2 : ¬ hasHttpScheme (trimChars raw.data) = true := by
    simpa [jsTrim] using hs
  show (⟨normalizeChars raw.data⟩ : String) = ⟨httpsPrefix ++ trimChars raw.data⟩
  rw [normalizeChars_eq, if_neg he, if_neg hs2]

theorem submitStart_of_filled (parseUrl : String → Option Url) (s : FormDraft)
    (ht : truthy (jsTrim s.title) = true) (hu : truthy (jsTrim s.url) = true) :
    submitStart parseUrl s =
      match parseUrl (normalizeUrl s.url) with
      | none => ({ s with error := some "That doesn't look like a valid URL" }, none)
      | some _ => ({ s with error := none, loading := true },
          some (jsTrim s.title, normalizeUrl s.url)) := by
  unfold submitStart
  simp only [ht, hu, Bool.not_true, Bool.or_self, Bool.false_eq_true, if_false]

theorem submitStart_of_blank (parseUrl : String → Option Url) (s : FormDraft)
    (h : truthy (jsTrim s.title) = false ∨ truthy (jsTrim s.url) = false) :
    submitStart parseUrl s = ({ s with error := some "Both fields are required" }, none) := by
  unfold submitStart
  rcases h with h | h <;> simp [h]

/-- C1, as the code has it: when the trimmed input is non-empty and has no
`http://` or `https://` prefix (in any letter case), `normalizeUrl` returns
`https://` followed by the trimmed input.  Whether that string parses is for
the URL parser to say: for a draft with this URL and a title that is non-empty
after trimming, `handleSubmit` calls `onAdd` once with it when it parses, and
when it does not parse makes no call and sets the error "That doesn't look
like a valid URL". -/
theorem normalizeUrl_prepends_to_trimmed (raw : String)
    (hne : truthy (jsTrim raw) = true) (hs : hasHttpScheme (jsTrim raw).data = false) :
    normalizeUrl raw = "https://" ++ jsTrim raw ∧
    ∀ (parseUrl : String → Option Url) (onAdd : String → String → Bool) (s : FormDraft),
      s.url = raw → truthy (jsTrim s.title) = true →
      ((parseUrl ("https://" ++ jsTrim raw)).isSome = true →
        (handleSubmit parseUrl onAdd s).2 = [(jsTrim s.title, "https://" ++ jsTrim raw)]) ∧
      (parseUrl ("https://" ++ jsTrim raw) = none →
        (handleSubmit parseUrl onAdd s).2 = [] ∧
        (handleSubmit parseUrl onAdd s).1.error
          = some "That doesn't look like a valid URL") := by
  refine ⟨normalizeUrl_eq_prefixed raw hne hs, ?_⟩
  intro parseUrl onAdd s hurl ht
  subst hurl
  have hstart := submitStart_of_filled parseUrl s ht hne
  rw [normalizeUrl_eq_prefixed s.url hne hs] at hstart
  constructor
  · intro hp
    rw [handleSubmit, hstart]
    cases hq : parseUrl ("https://" ++ jsTrim s.url) with
    | none => simp [hq] at hp
    | some u => simp
  · intro hp
    rw [handleSubmit, hstart, hp]
    simp

/-- Witness of C1 as amended, at the input with a leading blank, which the
fragment parser accepts once normalized. -/
theorem normalizeUrl_prepends_to_trimmed_witness :
    normalizeUrl " example.com" = "https://example.com" ∧
    (handleSubmit simpleParseUrl (fun _ _ => true)
      { title := "Site", url := " example.com", loading := false, error := none }).2
      = [("Site", "https://example.com")] :=
  ⟨(normalizeUrl_prepends_to_trimmed " example.com" (by decide) (by decide)).1,
   ((normalizeUrl_prepends_to_trimmed " example.com" (by decide) (by decide)).2
      simpleParseUrl (fun _ _ => true)
      { title := "Site", url := " example.com", loading := false, error := none }
      rfl (by decide)).1 (by decide)⟩

/-- C1 as stated fails twice.  The input ` example.com` is non-empty and has no
scheme prefix, yet the result is `https://` before the trimmed text, not before
the input itself.  The input `my site` is non-empty and has no scheme prefix,
the result is `https://my site`, and that string does not parse (a blank is not
allowed in a host): the submit ends with the error "That doesn't look like a
valid URL" and no `onAdd` call. -/
theorem normalizeUrl_claim_fails :
    (" example.com" ≠ "" ∧ hasHttpScheme " example.com".data = false ∧
      normalizeUrl " example.com" = "https://example.com" ∧
      normalizeUrl " example.com" ≠ "https://" ++ " example.com") ∧
    ("my site" ≠ "" ∧ hasHttpScheme "my site".data = false ∧
      normalizeUrl "my site" = "https://" ++ "my site" ∧
      simpleParseUrl (normalizeUrl "my site") = none ∧
      handleSubmit simpleParseUrl (fun _ _ => true)
          { title := "Site", url := "my site", loading := false, error := none }
        = ({ title := "Site", url := "my site", loading := false,
             error := some "That doesn't look like a valid URL" }, [])) := by
  decide

/-! ## Claims about `handleSubmit` -/

/-- C4: when the title or the URL is empty after trimming, a submit sets the
error to "Both fields are required", makes no `onAdd` call, and leaves the
title, the URL and the loading flag as they were; so it is for the empty
title with URL `example.com`. -/
theorem submit_blank_requires_both (parseUrl : String → Option Url)
    (onAdd : String → String → Bool) (s : FormDraft)
    (h : truthy (jsTrim s.title) = false ∨ truthy (jsTrim s.url) = false) :
    (handleSubmit parseUrl onAdd s).1.error = some "Both fields are required" ∧
    (handleSubmit parseUrl onAdd s).2 = [] ∧
    (submitStart parseUrl s).2 = none ∧
    (handleSubmit parseUrl onAdd s).1.title = s.title ∧
    (handleSubmit parseUrl onAdd s).1.url = s.url ∧
    (handleSubmit parseUrl onAdd s).1.loading = s.loading := by
  simp [handleSubmit, submitStart_of_blank parseUrl s h]

/-- Witness of C4: the empty title with URL `example.com`. -/
theorem submit_blank_requires_both_witness :
    let s : FormDraft := { title := "", url := "example.com", loading := false, error := none }
    (handleSubmit simpleParseUrl (fun _ _ => true) s).1.error
        = some "Both fields are required" ∧
    (handleSubmit simpleParseUrl (fun _ _ => true) s).2 = [] ∧
    (submitStart simpleParseUrl s).2 = none ∧
    (handleSubmit simpleParseUrl (fun _ _ => true) s).1.title = s.title ∧
    (handleSubmit simpleParseUrl (fun _ _ => true) s).1.url = s.url ∧
    (handleSubmit simpleParseUrl (fun _ _ => true) s).1.loading = s.loading :=
  submit_blank_requires_both simpleParseUrl (fun _ _ => true)
    { title := "", url := "example.com", loading := false, error := none }
    (Or.inl (by decide))

/-- C5: with title and URL both non-empty after trimming, a submit whose
normalized URL parses calls `onAdd` exactly once, with the trimmed title and
the normalized URL; one whose normalized URL does not parse makes no call and
sets the error "That doesn't look like a valid URL".  Title `Site` with URL
`example.com` calls `onAdd("Site", "https://example.com")` whenever the parser
accepts `https://example.com`. -/
theorem submit_calls_onAdd_once (parseUrl : String → Option Url)
    (onAdd : String → String → Bool) (s : FormDraft)
    (ht : truthy (jsTrim s.title) = true) (hu : truthy (jsTrim s.url) = true) :
    ((parseUrl (normalizeUrl s.url)).isSome = true →
      (handleSubmit parseUrl onAdd s).2 = [(jsTrim s.title, normalizeUrl s.url)] ∧
      (submitStart parseUrl s).2 = some (jsTrim s.title, normalizeUrl s.url)) ∧
    (parseUrl (normalizeUrl s.url) = none →
      (handleSubmit parseUrl onAdd s).2 = [] ∧
      (submitStart parseUrl s).2 = none ∧
      (handleSubmit parseUrl onAdd s).1.error = some "That doesn't look like a valid URL") ∧
    ((parseUrl "https://example.com").isSome = true →
      ∀ (loading : Bool) (error : Option String),
        (handleSubmit parseUrl onAdd
          { title := "Site", url := "example.com", loading := loading, error := error }).2
          = [("Site", "https://example.com")]) := by
  refine ⟨?_, ?_, ?_⟩
  · intro hp
    rw [handleSubmit, submitStart_of_filled parseUrl s ht hu]
    cases hq : parseUrl (normalizeUrl s.url) with
    | none => simp [hq] at hp
    | some u => simp
  · intro hp
    rw [handleSubmit, submitStart_of_filled parseUrl s ht hu, hp]
    simp
  · intro hp loading error
    have hn : normalizeUrl "example.com" = "https://example.com" := by decide
    have hs := submitStart_of_filled parseUrl
      { title := "Site", url := "example.com", loading := loading, error := error }
      (show truthy (jsTrim "Site") = true by decide)
      (show truthy (jsTrim "example.com") = true by decide)
    rw [handleSubmit, hs]
    simp only [hn]
    cases hq : parseUrl "https://example.com" with
    | none => simp [hq] at hp
    | some u =>
      have hj : jsTrim "Site" = "Site" := by decide
      simp [hj]

/-- Witness of C5: title `Site`, URL `example.com`, a collaborator that
succeeds. -/
theorem submit_calls_onAdd_once_witness :
    (handleSubmit simpleParseUrl (fun _ _ => true)
      { title := "Site", url := "example.com", loading := false, error := none }).2
      = [("Site", "https://example.com")] :=
  (submit_calls_onAdd_once simpleParseUrl (fun _ _ => true)
    { title := "Site", url := "example.com", loading := false, error := none }
    (by decide) (by decide)).2.2 (by decide) false none

/-- C6: for every accepted submission (the part before `await` made the
`onAdd` call), completion with success leaves title and URL empty, no error
and loading off; completion with failure leaves title and URL exactly as
typed, the error "Something went wrong, try again" and loading off. -/
theorem submit_completion_effects (parseUrl : String → Option Url) (s s1 : FormDraft)
    (call : String × String) (hacc : submitStart parseUrl s = (s1, some call)) :
    submitResume s1 true = { title := "", url := "", loading := false, error := none } ∧
    submitResume s1 false =
      { title := s.title, url := s.url, loading := false,
        error := some "Something went wrong, try again" } ∧
    (handleSubmit parseUrl (fun _ _ => true) s).1 =
      { title := "", url := "", loading := false, error := none } ∧
    (handleSubmit parseUrl (fun _ _ => false) s).1 =
      { title := s.title, url := s.url, loading := false,
        error := some "Something went wrong, try again" } := by
  have hs1 : s1 = { s with error := none, loading := true } := by
    by_cases hb : truthy (jsTrim s.title) = true ∧ truthy (jsTrim s.url) = true
    · rw [submitStart_of_filled parseUrl s hb.1 hb.2] at hacc
      cases hq : parseUrl (normalizeUrl s.url) with
      | none => simp [hq] at hacc
      | some u =>
        simp only [hq, Prod.mk.injEq] at hacc
        exact hacc.1.symm
    · have hb2 : truthy (jsTrim s.title) = false ∨ truthy (jsTrim s.url) = false := by
        by_cases h1 : truthy (jsTrim s.title) = true
        · right
          simpa [h1] using hb
        · left
          simpa using h1
      rw [submitStart_of_blank parseUrl s hb2] at hacc
      simp at hacc
  subst hs1
  refine ⟨rfl, rfl, ?_, ?_⟩
  · simp only [handleSubmit, hacc]
    rfl
  · simp only [handleSubmit, hacc]
    rfl

/-- Witness of C6: the accepted submission of title `Site`, URL
`example.com`. -/
theorem submit_completion_effects_witness :
    submitResume { title := "Site", url := "example.com", loading := true, error := none } true
      = { title := "", url := "", loading := false, error := none } ∧
    submitResume { title := "Site", url := "example.com", loading := true, error := none } false
      = { title := "Site", url := "example.com", loading := false,
          error := some "Something went wrong, try again" } ∧
    (handleSubmit simpleParseUrl (fun _ _ => true)
        { title := "Site", url := "example.com", loading := false, error := some "old" }).1
      = { title := "", url := "", loading := false, error := none } ∧
    (handleSubmit simpleParseUrl (fun _ _ => false)
        { title := "Site", url := "example.com", loading := false, error := some "old" }).1
      = { title := "Site", url := "example.com", loading := false,
          error := some "Something went wrong, try again" } :=
  submit_completion_effects simpleParseUrl
    { title := "Site", url := "example.com", loading := false, error := some "old" }
    { title := "Site", url := "example.com", loading := true, error := none }
    ("Site", "https://example.com") (by decide)

/-! ## One submission at a time -/

theorem submitStart_loading (parseUrl : String → Option Url) (s : FormDraft) :
    ((submitStart parseUrl s).2 = none → (submitStart parseUrl s).1.loading = s.loading) ∧
    ((submitStart parseUrl s).2.isSome = true → (submitStart parseUrl s).1.loading = true) := by
  by_cases hb : truthy (jsTrim s.title) = true ∧ truthy (jsTrim s.url) = true
  · rw [submitStart_of_filled parseUrl s hb.1 hb.2]
    cases parseUrl (normalizeUrl s.url) <;> simp
  · have hb2 : truthy (jsTrim s.title) = false ∨ truthy (jsTrim s.url) = false := by
      by_cases h1 : truthy (jsTrim s.title) = true
      · right
        simpa [h1] using hb
      · left
        simpa using h1
    rw [submitStart_of_blank parseUrl s hb2]
    simp

theorem balanced_idle (s : FormSys) (hs : s.Balanced) (hl : s.draft.loading = false) :
    s.inFlight = [] := by
  rcases hs with h | h
  · exact h
  · rw [hl] at h
    exact absurd h.1 (by decide)

theorem balanced_pending (s : FormSys) (hs : s.Balanced) (i : Nat)
    (hi : i < s.inFlight.length) :
    s.draft.loading = true ∧ s.inFlight.length = 1 ∧ s.inFlight.eraseIdx i = [] := by
  rcases hs with h | h
  · rw [h] at hi
    exact absurd hi (by simp)
  · refine ⟨h.1, h.2, ?_⟩
    have hlen : (s.inFlight.eraseIdx i).length = 0 := by
      rw [List.length_eraseIdx, if_pos hi, h.2]
    exact List.length_eq_zero.1 hlen

theorem balanced_step (parseUrl : String → Option Url) (s : FormSys) (e : FormEvent)
    (hs : s.Balanced) (he : uiEnabled s e = true) : (dispatch parseUrl s e).Balanced := by
  cases e with
  | changeTitle v =>
    have hl : s.draft.loading = false := by simpa [uiEnabled, titleDisabled] using he
    exact Or.inl (balanced_idle s hs hl)
  | changeUrl v =>
    have hl : s.draft.loading = false := by simpa [uiEnabled, urlDisabled] using he
    exact Or.inl (balanced_idle s hs hl)
  | submit =>
    have hl : s.draft.loading = false := by simpa [uiEnabled, submitDisabled] using he
    have hnil := balanced_idle s hs hl
    have hload := submitStart_loading parseUrl s.draft
    unfold dispatch
    cases hq : submitStart parseUrl s.draft with
    | mk d call =>
      rw [hq] at hload
      cases call with
      | none => exact Or.inl hnil
      | some c =>
        right
        refine ⟨hload.2 rfl, ?_⟩
        simp [hnil]
  | settle i ok =>
    have hi : i < s.inFlight.length := by simpa [uiEnabled] using he
    left
    simp only [dispatch, if_pos hi]
    exact (balanced_pending s hs i hi).2.2
  | fail i =>
    have hi : i < s.inFlight.length := by simpa [uiEnabled] using he
    left
    simp only [dispatch, if_pos hi]
    exact (balanced_pending s hs i hi).2.2

theorem balanced_of_reachable (parseUrl : String → Option Url) (s : FormSys)
    (h : UiReachable parseUrl s) : s.Balanced := by
  induction h with
  | init => exact Or.inl rfl
  | step e _ enabled ih => exact balanced_step parseUrl _ e ih enabled

/-- A rejected call leaves the form loading with nothing pending: typing
`Site` and `example.com`, submitting, and the call rejecting is a run of the
rendered form that ends with loading on and no call in flight. -/
theorem rejected_call_leaves_loading :
    UiReachable simpleParseUrl
      { draft := { title := "Site", url := "example.com", loading := true, error := none },
        inFlight := [] } :=
  UiReachable.step (.fail 0)
    (.step .submit
      (.step (.changeUrl "example.com")
        (.step (.changeTitle "Site") .init (by decide)) (by decide)) (by decide))
    (by decide)

/-- C8, as the code has it: in every state the rendered form can reach (edits
through enabled inputs, submits through the enabled button, pending calls
resolving or rejecting) at most one `onAdd` call is in flight; while one is in
flight loading is on and the page can produce neither a submit event nor an
edit; a submit the page can produce starts with nothing in flight and leaves at
most one call in flight; only that one call can complete.  For every draft, the
title input, the URL input and the submit button are disabled exactly while
loading is on.  The guard is the `disabled` attribute: the handler itself does
not look at `loading`. -/
theorem one_submission_in_flight (parseUrl : String → Option Url) (s : FormSys)
    (h : UiReachable parseUrl s) :
    s.inFlight.length ≤ 1 ∧
    (s.inFlight ≠ [] →
      s.draft.loading = true ∧
      uiEnabled s .submit = false ∧
      (∀ v, uiEnabled s (.changeTitle v) = false) ∧
      (∀ v, uiEnabled s (.changeUrl v) = false)) ∧
    (uiEnabled s .submit = true →
      s.inFlight = [] ∧ (dispatch parseUrl s .submit).inFlight.length ≤ 1) ∧
    (∀ i ok, uiEnabled s (.settle i ok) = true →
      i = 0 ∧ s.inFlight.length = 1 ∧ (dispatch parseUrl s (.settle i ok)).inFlight = []) ∧
    (∀ d : FormDraft,
      (titleDisabled d = true ↔ d.loading = true) ∧
      (urlDisabled d = true ↔ d.loading = true) ∧
      (submitDisabled d = true ↔ d.loading = true)) := by
  have hb := balanced_of_reachable parseUrl s h
  refine ⟨?_, ?_, ?_, ?_, fun d => ⟨Iff.rfl, Iff.rfl, Iff.rfl⟩⟩
  · rcases hb with hb | hb
    · simp [hb]
    · exact le_of_eq hb.2
  · intro hne
    rcases hb with hb | hb
    · exact absurd hb hne
    · simp [uiEnabled, titleDisabled, urlDisabled, submitDisabled, hb.1]
  · intro he
    have hb2 := balanced_step parseUrl s .submit hb he
    have hl : s.draft.loading = false := by simpa [uiEnabled, submitDisabled] using he
    refine ⟨balanced_idle s hb hl, ?_⟩
    rcases hb2 with hb2 | hb2
    · simp [hb2]
    · exact le_of_eq hb2.2
  · intro i ok he
    have hi : i < s.inFlight.length := by simpa [uiEnabled] using he
    have hp := balanced_pending s hb i hi
    refine ⟨by omega, hp.2.1, ?_⟩
    simp only [dispatch, if_pos hi]
    exact hp.2.2

/-- Witness of C8 as amended: the state reached by typing `Site` and
`example.com` and submitting, with the call still pending. -/
theorem one_submission_in_flight_witness :
    let s := dispatchAll simpleParseUrl FormSys.initial
      [.changeTitle "Site", .changeUrl "example.com", .submit]
    s.inFlight.length ≤ 1 ∧
    (s.inFlight ≠ [] →
      s.draft.loading = true ∧
      uiEnabled s .submit = false ∧
      (∀ v, uiEnabled s (.changeTitle v) = false) ∧
      (∀ v, uiEnabled s (.changeUrl v) = false)) ∧
    (uiEnabled s .submit = true →
      s.inFlight = [] ∧ (dispatch simpleParseUrl s .submit).inFlight.length ≤ 1) ∧
    (∀ i ok, uiEnabled s (.settle i ok) = true →
      i = 0 ∧ s.inFlight.length = 1 ∧
      (dispatch simpleParseUrl s (.settle i ok)).inFlight = []) ∧
    (∀ d : FormDraft,
      (titleDisabled d = true ↔ d.loading = true) ∧
      (urlDisabled d = true ↔ d.loading = true) ∧
      (submitDisabled d = true ↔ d.loading = true)) :=
  one_submission_in_flight simpleParseUrl _
    (.step .submit
      (.step (.changeUrl "example.com")
        (.step (.changeTitle "Site") .init (by decide)) (by decide)) (by decide))

/-- C8 as stated fails: `handleSubmit` has no check of `loading`.  With `Site`
and `example.com` typed and one call pending (loading on), a submit event that
reaches the handler calls `onAdd` a second time, so two calls are in flight. -/
theorem submit_while_loading_calls_again :
    (dispatchAll simpleParseUrl FormSys.initial
      [.changeTitle "Site", .changeUrl "example.com", .submit]).draft.loading = true ∧
    (dispatchAll simpleParseUrl FormSys.initial
      [.changeTitle "Site", .changeUrl "example.com", .submit]).inFlight
      = [("Site", "https://example.com")] ∧
    (dispatchAll simpleParseUrl FormSys.initial
      [.changeTitle "Site", .changeUrl "example.com", .submit, .submit]).inFlight
      = [("Site", "https://example.com"), ("Site", "https://example.com")] := by
  decide

/-! ## Claims about `timeAgo` -/

/-- C3: with `m` the whole minutes between the timestamp and now (rounded
down), `timeAgo` returns "just now" for `m < 1`, "`m`m ago" for `1 ≤ m < 60`,
then with `h = m / 60` "`h`h ago" for `h < 24`, then with `d = h / 24`
"`d`d ago" for `d < 7`, "`d / 7`w ago" for `7 ≤ d < 30`, and the month-day date
for `d ≥ 30`.  At the boundaries: 0 min "just now", 59 min "59m ago", 60 min
"1h ago", 23 h 59 min "23h ago", 24 h "1d ago", 6 days "6d ago", 7 days
"1w ago". -/
theorem timeAgo_buckets (formatMonthDay : TimeValue → String) (now t : Int) :
    ((now - t) / 60000 < 1 → timeAgo formatMonthDay now (some t) = "just now") ∧
    (1 ≤ (now - t) / 60000 → (now - t) / 60000 < 60 →
      timeAgo formatMonthDay now (some t) = toString ((now - t) / 60000) ++ "m ago") ∧
    (60 ≤ (now - t) / 60000 → (now - t) / 60000 / 60 < 24 →
      timeAgo formatMonthDay now (some t) = toString ((now - t) / 60000 / 60) ++ "h ago") ∧
    (24 ≤ (now - t) / 60000 / 60 → (now - t) / 60000 / 60 / 24 < 7 →
      timeAgo formatMonthDay now (some t)
        = toString ((now - t) / 60000 / 60 / 24) ++ "d ago") ∧
    (7 ≤ (now - t) / 60000 / 60 / 24 → (now - t) / 60000 / 60 / 24 < 30 →
      timeAgo formatMonthDay now (some t)
        = toString ((now - t) / 60000 / 60 / 24 / 7) ++ "w ago") ∧
    (30 ≤ (now - t) / 60000 / 60 / 24 →
      timeAgo formatMonthDay now (some t) = formatMonthDay (some t)) ∧
    timeAgo formatMonthDay (t + 0) (some t) = "just now" ∧
    timeAgo formatMonthDay (t + 59 * 60000) (some t) = "59m ago" ∧
    timeAgo formatMonthDay (t + 60 * 60000) (some t) = "1h ago" ∧
    timeAgo formatMonthDay (t + (23 * 60 + 59) * 60000) (some t) = "23h ago" ∧
    timeAgo formatMonthDay (t + 24 * 60 * 60000) (some t) = "1d ago" ∧
    timeAgo formatMonthDay (t + 6 * 24 * 60 * 60000) (some t) = "6d ago" ∧
    timeAgo formatMonthDay (t + 7 * 24 * 60 * 60000) (some t) = "1w ago" := by
  refine ⟨?_, ?_, ?_, ?_, ?_, ?_, ?_, ?_, ?_, ?_, ?_, ?_, ?_⟩
  · intro h
    simp [timeAgo, h]
  · intro h1 h2
    have : ¬ (now - t) / 60000 < 1 := by omega
    simp [timeAgo, this, h2]
  · intro h1 h2
    have a : ¬ (now - t) / 60000 < 1 := by omega
    have b : ¬ (now - t) / 60000 < 60 := by omega
    simp [timeAgo, a, b, h2]
  · intro h1 h2
    have a : ¬ (now - t) / 60000 < 1 := by omega
    have b : ¬ (now - t) / 60000 < 60 := by omega
    have c : ¬ (now - t) / 60000 / 60 < 24 := by omega
    simp [timeAgo, a, b, c, h2]
  · intro h1 h2
    have a : ¬ (now - t) / 60000 < 1 := by omega
    have b : ¬ (now - t) / 60000 < 60 := by omega
    have c : ¬ (now - t) / 60000 / 60 < 24 := by omega
    have d : ¬ (now - t) / 60000 / 60 / 24 < 7 := by omega
    simp [timeAgo, a, b, c, d, h2]
  · intro h1
    have a : ¬ (now - t) / 60000 < 1 := by omega
    have b : ¬ (now - t) / 60000 < 60 := by omega
    have c : ¬ (now - t) / 60000 / 60 < 24 := by omega
    have d : ¬ (now - t) / 60000 / 60 / 24 < 7 := by omega
    have e : ¬ (now - t) / 60000 / 60 / 24 < 30 := by omega
    simp [timeAgo, a, b, c, d, e]
  · have h : t + 0 - t = 0 := by omega
    simp only [timeAgo, h]
    rfl
  · have h : t + 59 * 60000 - t = 59 * 60000 := by omega
    simp only [timeAgo, h]
    rfl
  · have h : t + 60 * 60000 - t = 60 * 60000 := by omega
    simp only [timeAgo, h]
    rfl
  · have h : t + (23 * 60 + 59) * 60000 - t = (23 * 60 + 59) * 60000 := by omega
    simp only [timeAgo, h]
    rfl
  · have h : t + 24 * 60 * 60000 - t = 24 * 60 * 60000 := by omega
    simp only [timeAgo, h]
    rfl
  · have h : t + 6 * 24 * 60 * 60000 - t = 6 * 24 * 60 * 60000 := by omega
    simp only [timeAgo, h]
    rfl
  · have h : t + 7 * 24 * 60 * 60000 - t = 7 * 24 * 60 * 60000 := by omega
    simp only [timeAgo, h]
    rfl

/-- Witness of C3: a bookmark made 90 minutes before now reads "1h ago". -/
theorem timeAgo_buckets_witness :
    timeAgo (fun _ => "date") 5400000 (some 0) = toString ((5400000 - 0 : Int) / 60000 / 60) ++ "h ago" :=
  (timeAgo_buckets (fun _ => "date") 5400000 0).2.2.1 (by decide) (by decide)

/-! ## Claims about `getDomainColor` -/

set_option maxRecDepth 100000

theorem toInt32_emod (x : Int) : toInt32 x % 4294967296 = x % 4294967296 := by
  simp only [toInt32]
  norm_num
  split <;> omega

theorem toInt32_range (x : Int) : -2147483648 ≤ toInt32 x ∧ toInt32 x < 2147483648 := by
  simp only [toInt32]
  norm_num
  split <;> omega

theorem toInt32_of_range (x : Int) (h1 : -2147483648 ≤ x) (h2 : x < 2147483648) :
    toInt32 x = x := by
  simp only [toInt32]
  norm_num
  split <;> omega

theorem shl5_eq (h : Int) : shl5 h = toInt32 (32 * h) := by
  have e1 := toInt32_emod (toInt32 h * 32)
  have e2 := toInt32_emod (32 * h)
  have e3 := toInt32_emod h
  have r1 := toInt32_range (toInt32 h * 32)
  have r2 := toInt32_range (32 * h)
  unfold shl5
  omega

theorem hashStep_emod (a b : Int) (c : Nat) (h : a % 4294967296 = b % 4294967296) :
    hashStep a c % 4294967296 = classicStep b c % 4294967296 := by
  have e1 := toInt32_emod (32 * a)
  have e2 := toInt32_emod (31 * b + c)
  unfold hashStep classicStep
  rw [shl5_eq]
  omega

theorem foldl_hash_emod (units : List Nat) :
    ∀ a b : Int, a % 4294967296 = b % 4294967296 →
      units.foldl hashStep a % 4294967296 = units.foldl classicStep b % 4294967296 := by
  induction units with
  | nil => intro a b h; exact h
  | cons c rest ih =>
    intro a b h
    exact ih _ _ (hashStep_emod a b c h)

theorem foldl_classic_range (units : List Nat) :
    ∀ b : Int, -2147483648 ≤ b ∧ b < 2147483648 →
      -2147483648 ≤ units.foldl classicStep b ∧ units.foldl classicStep b < 2147483648 := by
  induction units with
  | nil => intro b h; exact h
  | cons c rest ih =>
    intro b _
    exact ih _ (toInt32_range _)

theorem domainHash_emod (units : List Nat) :
    domainHash units % 4294967296 = classicHash units % 4294967296 :=
  foldl_hash_emod units 0 0 rfl

theorem domainHash_eq_classic_of_range (units : List Nat)
    (h1 : -2147483648 ≤ domainHash units) (h2 : domainHash units < 2147483648) :
    domainHash units = classicHash units := by
  have e := domainHash_emod units
  have r := foldl_classic_range units 0 (by omega)
  unfold classicHash
  unfold classicHash at e
  omega

theorem colorIndex_lt (h : Int) : colorIndex h < colors.length :=
  Nat.mod_lt _ (by decide)

/-- While the code units are below `2^16`, the running value stays within
`length * (2^31 + 2^16)` of zero: below `2^53`, where number arithmetic is
exact, for every string shorter than `2^21` code units. -/
theorem domainHash_bound (units : List Nat) (hu : ∀ c ∈ units, c < 65536) :
    ∀ a : Int, (units.foldl hashStep a).natAbs ≤ a.natAbs + units.length * 2147549184 := by
  induction units with
  | nil => intro a; simp
  | cons c rest ih =>
    intro a
    have hc : c < 65536 := hu c (by simp)
    have hrest := ih (fun x hx => hu x (by simp [hx])) (hashStep a c)
    have r := toInt32_range (32 * a)
    have hstep : (hashStep a c).natAbs ≤ a.natAbs + 2147549184 := by
      unfold hashStep
      rw [shl5_eq]
      omega
    simp only [List.foldl_cons, List.length_cons]
    omega

/-- C2, as the code has it: `getDomainColor` returns the palette entry at
index `|h| mod 8`, always one of the 8 entries, where `h` starts at 0 and each
step sets `h` to `charCode + (wrap32(32 * h) - h)`: only the shifted term is
wrapped to 32 bits, the running value is not.  `h` is congruent modulo `2^32`
to the multiply-by-31 hash wrapped after every step, and whenever the final
`h` lies in the signed 32-bit range the entry is the one that hash selects. -/
theorem getDomainColor_selects (domain : String) :
    getDomainColor domain = colors[(domainHash (utf16Units domain)).natAbs % 8]? ∧
    (∃ c ∈ colors, getDomainColor domain = some c) ∧
    domainHash [] = 0 ∧
    (∀ (units : List Nat) (c : Nat),
      domainHash (units ++ [c]) = (c : Int) + (toInt32 (32 * domainHash units) - domainHash units)) ∧
    domainHash (utf16Units domain) % 4294967296
      = classicHash (utf16Units domain) % 4294967296 ∧
    (-2147483648 ≤ domainHash (utf16Units domain) →
      domainHash (utf16Units domain) < 2147483648 →
      getDomainColor domain = classicColor domain) := by
  refine ⟨rfl, ?_, rfl, ?_, domainHash_emod _, ?_⟩
  · have hlt := colorIndex_lt (domainHash (utf16Units domain))
    refine ⟨colors.get ⟨_, hlt⟩, List.get_mem _ _ _, ?_⟩
    unfold getDomainColor
    exact List.getElem?_eq_getElem hlt
  · intro units c
    simp only [domainHash, List.foldl_append, List.foldl_cons, List.foldl_nil]
    unfold hashStep
    rw [shl5_eq]
  · intro h1 h2
    unfold getDomainColor classicColor
    rw [domainHash_eq_classic_of_range _ h1 h2]

/-- Witness of C2 as amended: for `github.com` the running value ends inside
the 32-bit range and the entry is the one the wrapped hash selects. -/
theorem getDomainColor_selects_witness :
    getDomainColor "github.com" = classicColor "github.com" :=
  (getDomainColor_selects "github.com").2.2.2.2.2 (by decide) (by decide)

/-- C2 as stated fails: for `example.com` the code ends with `6645921533`,
outside the 32-bit range, and picks entry 5, while the hash wrapped after every
step ends with `-1944013059` and picks entry 3. -/
theorem getDomainColor_differs_from_wrapped_hash :
    domainHash (utf16Units "example.com") = 6645921533 ∧
    classicHash (utf16Units "example.com") = -1944013059 ∧
    getDomainColor "example.com" = some "from-rose-500/20 to-rose-600/10 text-rose-400" ∧
    classicColor "example.com"
      = some "from-emerald-500/20 to-emerald-600/10 text-emerald-400" ∧
    getDomainColor "example.com" ≠ classicColor "example.com" := by
  decide

/-! ## Claims about `getDomain` -/

/-- C9: `getDomain` is total: when the URL parses it returns the parsed hostname
with one leading `www.` removed (a hostname without that prefix is returned as
it is), and when parsing fails it returns its argument unchanged.  So
`https://www.example.com/x`, parsed with hostname `www.example.com`, gives
`example.com`, and the unparsable `not a url` gives `not a url`. -/
theorem getDomain_total (parseUrl : String → Option Url) (url : String) :
    (∀ u, parseUrl url = some u → getDomain parseUrl url = stripWww u.hostname) ∧
    (∀ rest : String, parseUrl url = some { hostname := "www." ++ rest } →
      getDomain parseUrl url = rest) ∧
    (∀ u, parseUrl url = some u → ¬ "www.".data <+: u.hostname.data →
      getDomain parseUrl url = u.hostname) ∧
    (parseUrl url = none → getDomain parseUrl url = url) ∧
    (parseUrl "https://www.example.com/x" = some { hostname := "www.example.com" } →
      getDomain parseUrl "https://www.example.com/x" = "example.com") ∧
    (parseUrl "not a url" = none → getDomain parseUrl "not a url" = "not a url") := by
  refine ⟨?_, ?_, ?_, ?_, ?_, ?_⟩
  · intro u h
    simp [getDomain, h]
  · intro rest h
    simp only [getDomain, h]
    rfl
  · intro u h hp
    simp only [getDomain, h]
    unfold stripWww
    split
    · rename_i rest heq
      exact absurd ⟨rest, by simp [heq]⟩ hp
    · rfl
  · intro h
    simp [getDomain, h]
  · intro h
    simp only [getDomain, h]
    decide
  · intro h
    simp [getDomain, h]

/-- Witness of C9: the two inputs of the claim, with the fragment parser. -/
theorem getDomain_total_witness :
    getDomain simpleParseUrl "https://www.example.com/x" = "example.com" ∧
    getDomain simpleParseUrl "not a url" = "not a url" :=
  ⟨(getDomain_total simpleParseUrl "https://www.example.com/x").2.2.2.2.1 (by decide),
   (getDomain_total simpleParseUrl "not a url").2.2.2.1 (by decide)⟩

/-! ## Claims about `BookmarkList` -/

/-- C7: `BookmarkList` picks its mode in this order: the skeleton with
exactly 3 placeholders when `loading` is on, whatever the bookmarks; else, with
no bookmarks, "No matches for" the query when the query is non-empty and "No
bookmarks yet" when it is empty or absent; else the populated list, one row per
bookmark in the given order, with the noun "link" exactly for one bookmark and
the heading "Search results" exactly when a query is active.  No bookmarks with
query `foo` gives the no-matches message. -/
theorem BookmarkList_modes (pf : Platform) (bookmarks : List Bookmark) (loading : Bool)
    (searchQuery : Option String) :
    (loading = true →
      BookmarkList pf bookmarks loading searchQuery = .skeleton [1, 2, 3] ∧
      [1, 2, 3].length = 3) ∧
    (loading = false → bookmarks = [] → ∀ q, searchQuery = some q → q ≠ "" →
      BookmarkList pf bookmarks loading searchQuery
        = .emptySearch ("No matches for \u201c" ++ q ++ "\u201d") "Try a different search term") ∧
    (loading = false → bookmarks = [] → (searchQuery = none ∨ searchQuery = some "") →
      BookmarkList pf bookmarks loading searchQuery
        = .emptyAll "No bookmarks yet" "Save your first link above to get started") ∧
    (loading = false → bookmarks ≠ [] →
      ∃ heading noun rows,
        BookmarkList pf bookmarks loading searchQuery
          = .populated heading bookmarks.length noun rows ∧
        rows = bookmarks.map (renderRow pf) ∧
        rows.length = bookmarks.length ∧
        rows.map Row.key = bookmarks.map Bookmark.id ∧
        (noun = "link" ↔ bookmarks.length = 1) ∧
        (noun = "links" ↔ bookmarks.length ≠ 1) ∧
        (heading = "Search results" ↔ ∃ q, searchQuery = some q ∧ q ≠ "") ∧
        (heading = "Your links" ↔ ¬ ∃ q, searchQuery = some q ∧ q ≠ "")) ∧
    (BookmarkList pf [] false (some "foo")
      = .emptySearch "No matches for \u201cfoo\u201d" "Try a different search term") ∧
    (BookmarkList pf [] false (some "")
      = .emptyAll "No bookmarks yet" "Save your first link above to get started") ∧
    (BookmarkList pf [] false none
      = .emptyAll "No bookmarks yet" "Save your first link above to get started") := by
  have htr : ∀ q : String, truthy q = true ↔ q ≠ "" := by
    intro q
    constructor
    · intro h hq
      subst hq
      exact absurd h (by decide)
    · intro h
      cases q with
      | mk d =>
        cases d with
        | nil => exact absurd rfl h
        | cons a l => rfl
  have hqa : queryActive searchQuery = true ↔ ∃ q, searchQuery = some q ∧ q ≠ "" := by
    cases searchQuery with
    | none => simp [queryActive]
    | some q => simp [queryActive, htr]
  refine ⟨?_, ?_, ?_, ?_, rfl, rfl, rfl⟩
  · intro hl
    subst hl
    exact ⟨rfl, rfl⟩
  · intro hl hb q hq hne
    subst hl hb hq
    simp [BookmarkList, (htr q).2 hne]
  · intro hl hb hq
    subst hl hb
    rcases hq with hq | hq <;> subst hq <;> rfl
  · intro hl hb
    subst hl
    have hlen : (bookmarks.length == 0) = false := by
      cases bookmarks with
      | nil => exact absurd rfl hb
      | cons a l => rfl
    refine ⟨if queryActive searchQuery then "Search results" else "Your links",
      if bookmarks.length == 1 then "link" else "links", bookmarks.map (renderRow pf),
      ?_, rfl, ?_, ?_, ?_, ?_, ?_, ?_⟩
    · simp [BookmarkList, hlen]
    · simp
    · simp [renderRow, Function.comp_def]
    · by_cases h1 : bookmarks.length = 1
      · simp [h1]
      · simp only [beq_iff_eq, h1, if_false, iff_false]
        decide
    · by_cases h1 : bookmarks.length = 1
      · simp only [beq_iff_eq, h1, if_true, ne_eq, not_true_eq_false, iff_false]
        decide
      · simp [h1]
    · rw [← hqa]
      by_cases h1 : queryActive searchQuery = true
      · simp [h1]
      · simp only [h1, if_false, iff_false]
        decide
    · rw [← hqa]
      by_cases h1 : queryActive searchQuery = true
      · simp only [h1, if_true, not_true_eq_false, iff_false]
        decide
      · simp [h1]

/-- Witness of C7: a single bookmark, no query, not loading. -/
theorem BookmarkList_modes_witness :
    ∃ heading noun rows,
      BookmarkList
          { parseUrl := simpleParseUrl, dateTime := fun _ => none,
            formatMonthDay := fun _ => "Invalid Date", now := 0 }
          [{ id := "1", title := "Site", url := "https://example.com",
             is_favorite := false, created_at := none }] false none
        = .populated heading 1 noun rows ∧
      rows = [{ id := "1", title := "Site", url := "https://example.com",
                is_favorite := false, created_at := none }].map
              (renderRow { parseUrl := simpleParseUrl, dateTime := fun _ => none,
                           formatMonthDay := fun _ => "Invalid Date", now := 0 }) ∧
      rows.length = 1 ∧
      rows.map Row.key = ["1"] ∧
      (noun = "link" ↔ 1 = 1) ∧
      (noun = "links" ↔ 1 ≠ 1) ∧
      (heading = "Search results" ↔ ∃ q, (none : Option String) = some q ∧ q ≠ "") ∧
      (heading = "Your links" ↔ ¬ ∃ q, (none : Option String) = some q ∧ q ≠ "") :=
  (BookmarkList_modes
    { parseUrl := simpleParseUrl, dateTime := fun _ => none,
      formatMonthDay := fun _ => "Invalid Date", now := 0 }
    [{ id := "1", title := "Site", url := "https://example.com",
       is_favorite := false, created_at := none }] false none).2.2.2.1 rfl (by simp)

end BookmarkPro
